import Mathlib

/-!
Shallow embedding of the tool-invocation core of the zSearch repository
(`src/lib/mcp-client.ts`): retry policy (`withRetry`), timeout guard
(`withTimeout`), stdio session wrapper (`McpClientWrapper`), the ZRead
dispatcher (`callZRead`) and the HTTP invoker body normalization
(`callHttpTool`).

Asynchronous effects are made explicit: a promise is modelled as an
`AsyncOp` (an optional resolution time plus an outcome), the external
world (SDK client, subprocess, network) as an oracle record, and each
stateful operation returns its successor state together with the list of
protocol side effects it performed.  JavaScript `null` errors are
modelled with `Option`, and exceptions with `Except`.
-/

/-- JSON values, the shape produced by the runtime JSON decoder. -/
inductive Json where
  | null
  | bool (b : Bool)
  | num (n : Int)
  | str (s : String)
  | arr (elems : List Json)
  | obj (fields : List (String × Json))
  deriving Repr

/-- Property lookup on a decoded JSON object (`json.result`). -/
def jsonLookup (fields : List (String × Json)) (key : String) : Option Json :=
  match fields with
  | [] => none
  | (k, v) :: rest => if k = key then some v else jsonLookup rest key

/-- The errors raised by the client module, one constructor per
`throw new Error(...)` site (plus the kinds of underlying SDK failures
that flow through unchanged). -/
inductive McpError where
  | httpBased (name : String)
  | unknownServerType (s : String)
  | notConnected
  | timedOut (operation : String) (timeoutMs : Nat)
  | httpError (status : Nat) (statusText : String)
  | malformedStream
  | connectFailed (msg : String)
  | toolFailed (msg : String)
  | zreadFailed (method : String) (content : List Json)
  deriving Repr

/-- The literal message each error site interpolates. -/
def McpError.message : McpError → String
  | .httpBased name => name ++ " is HTTP-based, not stdio"
  | .unknownServerType s => "Unknown server type: " ++ s
  | .notConnected => "Not connected to MCP server"
  | .timedOut operation timeoutMs =>
      "Operation \x27" ++ operation ++ "\x27 timed out after " ++
        toString timeoutMs ++ "ms"
  | .httpError status statusText =>
      "HTTP " ++ toString status ++ ": " ++ statusText
  | .malformedStream => "No data found in SSE response"
  | .connectFailed msg => msg
  | .toolFailed msg => msg
  | .zreadFailed method _ => "ZRead " ++ method ++ " failed"

/-- A promise: the instant (ms) at which it settles (`none` = it never
settles) and the outcome it settles with. -/
structure AsyncOp (α : Type) where
  resolveAt : Option Nat
  outcome : Except McpError α

/-- Timeout for MCP server connections (ms). -/
def MCP_CONNECTION_TIMEOUT : Nat := 30000

/-- Timeout for MCP tool calls (ms). -/
def MCP_TOOL_TIMEOUT : Nat := 120000

/-- `withTimeout(promise, timeoutMs, operation)`: races the promise
against a timer; the timer rejects with the interpolated timeout
message.  The promise wins exactly when it settles strictly before the
timer fires. -/
def withTimeout {α : Type} (op : AsyncOp α) (timeoutMs : Nat)
    (operation : String) : Except McpError α :=
  match op.resolveAt with
  | none => .error (.timedOut operation timeoutMs)
  | some t =>
      if t < timeoutMs then op.outcome
      else .error (.timedOut operation timeoutMs)

/-- The `McpServerType` enum. -/
inductive McpServerType where
  | vision
  | search
  | read
  | zread
  deriving Repr, DecidableEq

/-- The string value of the enum member, as it appears interpolated in
error and timeout messages. -/
def McpServerType.name : McpServerType → String
  | .vision => "vision"
  | .search => "search"
  | .read => "read"
  | .zread => "zread"

/-- Server configuration: command, args and environment. -/
structure McpServerConfig where
  command : String
  args : List String
  env : List (String × String)
  deriving Repr, DecidableEq

/-- `getServerConfig(serverType, apiKey)` from the stdio client module:
Vision and Zread map to the `npx @z_ai/mcp-server` subprocess, the
HTTP-based types throw. -/
def getServerConfig (serverType : McpServerType) (apiKey : String) :
    Except McpError McpServerConfig :=
  match serverType with
  | .vision =>
      .ok { command := "npx", args := ["-y", "@z_ai/mcp-server"],
            env := [("Z_AI_API_KEY", apiKey), ("Z_AI_MODE", "ZAI")] }
  | .zread =>
      .ok { command := "npx", args := ["-y", "@z_ai/mcp-server"],
            env := [("Z_AI_API_KEY", apiKey), ("Z_AI_MODE", "ZAI")] }
  | .search => .error (.httpBased "Search")
  | .read => .error (.httpBased "Read")

/-- The label passed to the connection timeout guard:
`MCP server connection (${serverType})`. -/
def connectionLabel (serverType : McpServerType) : String :=
  "MCP server connection (" ++ serverType.name ++ ")"

/-- Exponential backoff delay after failed attempt `attempt`:
`Math.min(100 * Math.pow(2, attempt), 2000)`. -/
def backoffDelay (attempt : Nat) : Nat :=
  min (100 * 2 ^ attempt) 2000

/-- The retry loop of `withRetry`, from loop index `attempt` with
`remaining` further iterations allowed.  `fn i` is the outcome of the
`i`-th invocation (0-based).  Returns the final outcome (`Except.error
none` models `throw null`), the number of invocations performed, and the
list of backoff delays awaited, in order. -/
def withRetryGo {ε α : Type} (fn : Nat → Except ε α) :
    Nat → Nat → Except (Option ε) α × Nat × List Nat
  | 0, attempt =>
      match fn attempt with
      | .ok v => (.ok v, 1, [])
      | .error e => (.error (some e), 1, [])
  | r + 1, attempt =>
      match fn attempt with
      | .ok v => (.ok v, 1, [])
      | .error _ =>
          let rest := withRetryGo fn r (attempt + 1)
          (rest.1, rest.2.1 + 1, backoffDelay attempt :: rest.2.2)

/-- `withRetry(fn, retryCount)`: runs `for (attempt = 0; attempt <=
retryCount; attempt++)`; with a negative `retryCount` the loop body
never executes and the captured `lastError` (still `null`) is thrown,
modelled as `Except.error none`. -/
def withRetry {ε α : Type} (fn : Nat → Except ε α) (retryCount : Int) :
    Except (Option ε) α × Nat × List Nat :=
  if retryCount < 0 then (.error none, 0, [])
  else withRetryGo fn retryCount.toNat 0

/-- The SDK `Client` handle constructed by `connect` (identifying info
only; the live channel is modelled by the world oracle). -/
structure ClientHandle where
  name : String
  version : String
  deriving Repr, DecidableEq

/-- The SDK `StdioClientTransport` handle: owns the subprocess spec. -/
structure TransportHandle where
  command : String
  args : List String
  env : List (String × String)
  deriving Repr, DecidableEq

/-- The `McpClientWrapper` instance state: two nullable handle fields
plus the `connected` flag. -/
structure McpClientWrapper where
  client : Option ClientHandle
  transport : Option TransportHandle
  connected : Bool
  deriving Repr, DecidableEq

/-- A freshly constructed wrapper: both handles null, not connected. -/
def McpClientWrapper.new : McpClientWrapper :=
  { client := none, transport := none, connected := false }

/-- Observable protocol side effects of the stdio session. -/
inductive Effect where
  | startTransport (t : TransportHandle)
  | protoListTools
  | protoCallTool (toolName : String)
  | closeTransport
  deriving Repr, DecidableEq

/-- A tool descriptor as returned by `listTools`. -/
structure McpTool where
  name : String
  description : String
  inputSchema : Json
  deriving Repr

/-- The raw SDK response to `client.callTool`. -/
structure RawToolResponse where
  content : List Json
  isError : Option Bool
  deriving Repr

/-- The `McpToolResult` shape the wrapper returns. -/
structure McpToolResult where
  content : List Json
  isError : Option Bool
  deriving Repr

/-- Oracle for the external world: what each underlying SDK promise
would do. -/
structure StdioWorld where
  connectOp : AsyncOp Unit
  listToolsOp : AsyncOp (List McpTool)
  callToolOp : String → List (String × Json) → AsyncOp RawToolResponse

/-- `McpClientWrapper.connect`: resolves the server config (throwing
for HTTP-based types), stores fresh client and transport handles, then
awaits the SDK connection under the 30 s timeout guard; only on success
is `connected` set.  On failure the handle fields keep the values just
assigned and no close is performed. -/
def McpClientWrapper.connect (w : McpClientWrapper)
    (serverType : McpServerType) (apiKey : String) (world : StdioWorld) :
    McpClientWrapper × List Effect × Except McpError Unit :=
  match getServerConfig serverType apiKey with
  | .error e => (w, [], .error e)
  | .ok config =>
      let client : ClientHandle := { name := "zai-cli", version := "0.1.0" }
      let transport : TransportHandle :=
        { command := config.command, args := config.args, env := config.env }
      let w1 := { w with client := some client, transport := some transport }
      match withTimeout world.connectOp MCP_CONNECTION_TIMEOUT
          (connectionLabel serverType) with
      | .error e => (w1, [.startTransport transport], .error e)
      | .ok _ => ({ w1 with connected := true },
          [.startTransport transport], .ok ())

/-- `isConnected()`. -/
def McpClientWrapper.isConnected (w : McpClientWrapper) : Bool :=
  w.connected

/-- `listTools()`: guarded by the connection check, then the SDK call
under the 120 s timeout, then the field-by-field mapping of each tool. -/
def McpClientWrapper.listTools (w : McpClientWrapper) (world : StdioWorld) :
    McpClientWrapper × List Effect × Except McpError (List McpTool) :=
  if w.client.isNone || !w.connected then (w, [], .error .notConnected)
  else
    match withTimeout world.listToolsOp MCP_TOOL_TIMEOUT "list tools" with
    | .error e => (w, [.protoListTools], .error e)
    | .ok tools => (w, [.protoListTools],
        .ok (tools.map fun t =>
          { name := t.name, description := t.description,
            inputSchema := t.inputSchema }))

/-- `callTool(name, args)`: guarded by the connection check, then the
SDK call under the 120 s timeout; the result copies `response.content`
and `response.isError` verbatim. -/
def McpClientWrapper.callTool (w : McpClientWrapper) (toolName : String)
    (args : List (String × Json)) (world : StdioWorld) :
    McpClientWrapper × List Effect × Except McpError McpToolResult :=
  if w.client.isNone || !w.connected then (w, [], .error .notConnected)
  else
    match withTimeout (world.callToolOp toolName args) MCP_TOOL_TIMEOUT
        ("tool call: " ++ toolName) with
    | .error e => (w, [.protoCallTool toolName], .error e)
    | .ok resp => (w, [.protoCallTool toolName],
        .ok { content := resp.content, isError := resp.isError })

/-- `disconnect()`: closes the transport when one is held, then nulls
both handles and clears `connected`. -/
def McpClientWrapper.disconnect (w : McpClientWrapper) :
    McpClientWrapper × List Effect :=
  ({ client := none, transport := none, connected := false },
   if w.transport.isSome then [Effect.closeTransport] else [])

/-- `connectToServer(serverType, apiKey)`: fresh wrapper plus
`connect`; on failure the rejection propagates (the wrapper value is
discarded, its handles untouched). -/
def connectToServer (serverType : McpServerType) (apiKey : String)
    (world : StdioWorld) :
    Except McpError McpClientWrapper × List Effect :=
  let r := McpClientWrapper.new.connect serverType apiKey world
  match r.2.2 with
  | .error e => (.error e, r.2.1)
  | .ok _ => (.ok r.1, r.2.1)

/-- The two ZRead methods. -/
inductive ZReadMethod where
  | searchDoc
  | getRepoStructure
  deriving Repr, DecidableEq

/-- The method literal as it appears in the code. -/
def ZReadMethod.str : ZReadMethod → String
  | .searchDoc => "search_doc"
  | .getRepoStructure => "get_repo_structure"

/-- `method === 'search_doc' ? 'zai.zread.search_doc' :
'zai.zread.get_repo_structure'`. -/
def zreadToolName (method : ZReadMethod) : String :=
  match method with
  | .searchDoc => "zai.zread.search_doc"
  | .getRepoStructure => "zai.zread.get_repo_structure"

/-- `callZRead(apiKey, method, args)`: connect, call the tool, then
disconnect, then raise on a truthy `result.isError`.  A rejection from
`callTool` propagates straight out: the `disconnect` line is only
reached after a successful `await`. -/
def callZRead (apiKey : String) (method : ZReadMethod)
    (args : List (String × Json)) (world : StdioWorld) :
    Except McpError (List Json) × List Effect :=
  match connectToServer McpServerType.zread apiKey world with
  | (.error e, effs) => (.error e, effs)
  | (.ok client, effs1) =>
      let toolName := zreadToolName method
      match client.callTool toolName args world with
      | (_, effs2, .error e) => (.error e, effs1 ++ effs2)
      | (client2, effs2, .ok result) =>
          let d := client2.disconnect
          if result.isError = some true then
            (.error (.zreadFailed method.str result.content),
             effs1 ++ effs2 ++ d.2)
          else
            (.ok result.content, effs1 ++ effs2 ++ d.2)

/-- The value `callHttpTool` resolves with: either a decoded JSON value
or a raw (undecodable) string. -/
inductive HttpValue where
  | json (j : Json)
  | raw (s : String)
  deriving Repr

/-- An HTTP response as consumed by `callHttpTool`: `ok` is the fetch
`response.ok` flag (status in the 2xx range), plus status line and body
text. -/
structure HttpResponse where
  ok : Bool
  status : Nat
  statusText : String
  text : String

/-- Character-list prefix test (`String.prototype.startsWith`). -/
def startsWithChars : List Char → List Char → Bool
  | _, [] => true
  | [], _ :: _ => false
  | c :: cs, p :: ps => c = p && startsWithChars cs ps

/-- Character-list substring test (`String.prototype.includes`). -/
def containsChars : List Char → List Char → Bool
  | cs, needle =>
    startsWithChars cs needle ||
      match cs with
      | [] => false
      | _ :: rest => containsChars rest needle

/-- Split a character list at every `'\n'` (`text.split('\n')`),
keeping empty segments, as JavaScript does. -/
def splitOnNewline : List Char → List (List Char)
  | [] => [[]]
  | c :: rest =>
      let r := splitOnNewline rest
      if c = '\n' then [] :: r
      else
        match r with
        | [] => [[c]]
        | h :: t => (c :: h) :: t

/-- Strip leading and trailing whitespace (`String.prototype.trim`). -/
def trimChars (cs : List Char) : List Char :=
  ((cs.dropWhile Char.isWhitespace).reverse.dropWhile Char.isWhitespace).reverse

/-- JavaScript `text.includes(sub)`. -/
def jsContains (s sub : String) : Bool :=
  containsChars s.data sub.data

/-- JavaScript `text.split('\n')`. -/
def jsSplitLines (s : String) : List String :=
  (splitOnNewline s.data).map String.mk

/-- JavaScript `line.startsWith(p)`. -/
def jsStartsWith (s p : String) : Bool :=
  startsWithChars s.data p.data

/-- JavaScript `line.slice(n)` for a non-negative `n`. -/
def jsSliceFrom (s : String) (n : Nat) : String :=
  String.mk (s.data.drop n)

/-- JavaScript `s.trim()`. -/
def jsTrim (s : String) : String :=
  String.mk (trimChars s.data)

/-- The `result`-unwrapping rule applied to a decoded chunk `s`:
`JSON.parse`, then if the value is an object with a `result` key return
that sub-value, else the value itself; on decode failure the raw
string.  `parse` is the runtime JSON decoder, supplied as an oracle. -/
def unwrapResult (parse : String → Option Json) (s : String) : HttpValue :=
  match parse s with
  | none => .raw s
  | some j =>
      match j with
      | .obj fields =>
          match jsonLookup fields "result" with
          | some r => .json r
          | none => .json j
      | _ => .json j

/-- `callHttpTool` after the fetch: non-2xx throws `HTTP status:
statusText`; otherwise if the body text contains the substring `event:`
or `data:` it is parsed as SSE — the first line starting with `data:`
is sliced past the prefix, trimmed and unwrapped, and if no such line
exists the call throws `No data found in SSE response`; otherwise the
whole body is unwrapped. -/
def callHttpTool (parse : String → Option Json) (resp : HttpResponse) :
    Except McpError HttpValue :=
  if !resp.ok then .error (.httpError resp.status resp.statusText)
  else
    let text := resp.text
    if jsContains text "event:" || jsContains text "data:" then
      match (jsSplitLines text).find? (fun line => jsStartsWith line "data:") with
      | some line => .ok (unwrapResult parse (jsTrim (jsSliceFrom line 5)))
      | none => .error .malformedStream
    else
      .ok (unwrapResult parse text)

/-- A successful (2xx) response with the given body. -/
def okResp (body : String) : HttpResponse :=
  { ok := true, status := 200, statusText := "OK", text := body }

/-- Concrete fixtures for the HTTP normalization claims. -/
def okObj : Json := Json.obj [("ok", Json.bool true)]

/-- `{"result":{"ok":true}}` as a decoded value. -/
def resultWrapped : Json := Json.obj [("result", okObj)]

/-- The plain JSON body `{"result":{"ok":true}}`. -/
def jsonBody : String := "\x7b\"result\":\x7b\"ok\":true\x7d\x7d"

/-- The SSE body `event: message\ndata: {"result":{"ok":true}}\n\n`. -/
def sseBody : String :=
  "event: message\ndata: \x7b\"result\":\x7b\"ok\":true\x7d\x7d\n\n"

/-- A retry fixture: fails on invocations 0 and 1, succeeds on
invocation 2 with the value 42. -/
def retryFnW : Nat → Except Nat Nat := fun i =>
  if i < 2 then Except.error i else Except.ok 42

/-- A body whose only occurrence of `data:` is inside a JSON string
value: no line starts with `event:` or `data:`. -/
def noisyBody : String := "\x7b\"note\":\"data: none\"\x7d"

/-- The decoded value of `noisyBody`. -/
def noisyJson : Json := Json.obj [("note", Json.str "data: none")]

/-- A concrete JSON decoder fixture, defined on the bodies used by the
witnesses and undefined (decode failure) elsewhere. -/
def parseW : String → Option Json := fun s =>
  if s = jsonBody then some resultWrapped
  else if s = noisyBody then some noisyJson
  else none

/-- The transport handle `connect` builds for the Vision/Zread config. -/
def zreadTransport (apiKey : String) : TransportHandle :=
  { command := "npx", args := ["-y", "@z_ai/mcp-server"],
    env := [("Z_AI_API_KEY", apiKey), ("Z_AI_MODE", "ZAI")] }

/-- The server config `getServerConfig` returns for Vision/Zread. -/
def zreadConfig (apiKey : String) : McpServerConfig :=
  { command := "npx", args := ["-y", "@z_ai/mcp-server"],
    env := [("Z_AI_API_KEY", apiKey), ("Z_AI_MODE", "ZAI")] }

/-- The wrapper state right after a successful `connect` for Zread. -/
def connectedWrapper (apiKey : String) : McpClientWrapper :=
  { client := some { name := "zai-cli", version := "0.1.0" },
    transport := some (zreadTransport apiKey), connected := true }

/-- A tool response with no remote error flag. -/
def okToolResp : RawToolResponse :=
  { content := [Json.str "done"], isError := none }

/-- A tool response carrying the remote `isError` flag. -/
def errToolResp : RawToolResponse :=
  { content := [Json.str "oops"], isError := some true }

/-- World in which every operation resolves instantly and succeeds. -/
def happyWorld : StdioWorld :=
  { connectOp := { resolveAt := some 0, outcome := .ok () }
  , listToolsOp := { resolveAt := some 0, outcome := .ok [] }
  , callToolOp := fun _ _ => { resolveAt := some 0, outcome := .ok okToolResp } }

/-- World in which the SDK connection rejects immediately. -/
def connectFailWorld : StdioWorld :=
  { connectOp :=
      { resolveAt := some 0, outcome := .error (.connectFailed "spawn failed") }
  , listToolsOp := { resolveAt := some 0, outcome := .ok [] }
  , callToolOp := fun _ _ => { resolveAt := some 0, outcome := .ok okToolResp } }

/-- World in which connection succeeds but the tool call rejects. -/
def callRejectWorld : StdioWorld :=
  { connectOp := { resolveAt := some 0, outcome := .ok () }
  , listToolsOp := { resolveAt := some 0, outcome := .ok [] }
  , callToolOp := fun _ _ =>
      { resolveAt := some 0, outcome := .error (.toolFailed "boom") } }

/-- World in which the tool call resolves with the remote error flag. -/
def isErrorWorld : StdioWorld :=
  { connectOp := { resolveAt := some 0, outcome := .ok () }
  , listToolsOp := { resolveAt := some 0, outcome := .ok [] }
  , callToolOp := fun _ _ => { resolveAt := some 0, outcome := .ok errToolResp } }

theorem withRetryGo_count_le {ε α : Type} (fn : Nat → Except ε α) :
    ∀ remaining attempt, (withRetryGo fn remaining attempt).2.1 ≤ remaining + 1 := by
  intro remaining
  induction remaining with
  | zero =>
      intro attempt
      cases h : fn attempt <;> simp [withRetryGo, h]
  | succ r ih =>
      intro attempt
      cases h : fn attempt with
      | ok v => simp [withRetryGo, h]
      | error e =>
          rw [withRetryGo, h]
          exact Nat.succ_le_succ (ih (attempt + 1))

theorem withRetryGo_success {ε α : Type} (fn : Nat → Except ε α) :
    ∀ (i attempt remaining : Nat) (v : α), i ≤ remaining →
      (∀ j, j < i → (fn (attempt + j)).isOk = false) →
      fn (attempt + i) = .ok v →
      withRetryGo fn remaining attempt =
        (.ok v, i + 1, (List.range i).map (fun k => backoffDelay (attempt + k))) := by
  intro i
  induction i with
  | zero =>
      intro attempt remaining v _ _ hok
      rw [Nat.add_zero] at hok
      cases remaining <;> simp [withRetryGo, hok]
  | succ i ih =>
      intro attempt remaining v hle hfail hok
      have h0 : (fn attempt).isOk = false := by
        have := hfail 0 (Nat.succ_pos i)
        rwa [Nat.add_zero] at this
      obtain ⟨e, he⟩ : ∃ e, fn attempt = .error e := by
        cases hfn : fn attempt with
        | ok w => rw [hfn] at h0; simp [Except.isOk, Except.toBool] at h0
        | error e => exact ⟨e, rfl⟩
      obtain ⟨r, rfl⟩ : ∃ r, remaining = r + 1 := ⟨remaining - 1, by omega⟩
      have hrec := ih (attempt + 1) r v (by omega)
        (fun j hj => by
          have := hfail (j + 1) (by omega)
          have harr : attempt + (j + 1) = attempt + 1 + j := by omega
          rwa [harr] at this)
        (by
          have harr : attempt + 1 + i = attempt + (i + 1) := by omega
          rw [harr]; exact hok)
      rw [withRetryGo, he, hrec]
      refine Prod.ext rfl (Prod.ext rfl ?_)
      show backoffDelay attempt ::
          (List.range i).map (fun k => backoffDelay (attempt + 1 + k)) =
        (List.range (i + 1)).map (fun k => backoffDelay (attempt + k))
      rw [List.range_succ_eq_map, List.map_cons, List.map_map, Nat.add_zero]
      refine congrArg (List.cons (backoffDelay attempt)) ?_
      apply List.map_congr_left
      intro k _
      show backoffDelay (attempt + 1 + k) = backoffDelay (attempt + (k + 1))
      congr 1
      omega

theorem withRetryGo_exhaust {ε α : Type} (fn : Nat → Except ε α) :
    ∀ (remaining attempt : Nat) (e : ε),
      (∀ j, j < remaining → (fn (attempt + j)).isOk = false) →
      fn (attempt + remaining) = .error e →
      withRetryGo fn remaining attempt =
        (.error (some e), remaining + 1,
         (List.range remaining).map (fun k => backoffDelay (attempt + k))) := by
  intro remaining
  induction remaining with
  | zero =>
      intro attempt e _ he
      rw [Nat.add_zero] at he
      simp [withRetryGo, he]
  | succ r ih =>
      intro attempt e hfail he
      have h0 : (fn attempt).isOk = false := by
        have := hfail 0 (Nat.succ_pos r)
        rwa [Nat.add_zero] at this
      obtain ⟨e0, he0⟩ : ∃ e0, fn attempt = .error e0 := by
        cases hfn : fn attempt with
        | ok w => rw [hfn] at h0; simp [Except.isOk, Except.toBool] at h0
        | error e0 => exact ⟨e0, rfl⟩
      have hrec := ih (attempt + 1) e
        (fun j hj => by
          have := hfail (j + 1) (by omega)
          have harr : attempt + (j + 1) = attempt + 1 + j := by omega
          rwa [harr] at this)
        (by
          have harr : attempt + 1 + r = attempt + (r + 1) := by omega
          rw [harr]; exact he)
      rw [withRetryGo, he0, hrec]
      refine Prod.ext rfl (Prod.ext rfl ?_)
      show backoffDelay attempt ::
          (List.range r).map (fun k => backoffDelay (attempt + 1 + k)) =
        (List.range (r + 1)).map (fun k => backoffDelay (attempt + k))
      rw [List.range_succ_eq_map, List.map_cons, List.map_map, Nat.add_zero]
      refine congrArg (List.cons (backoffDelay attempt)) ?_
      apply List.map_congr_left
      intro k _
      show backoffDelay (attempt + 1 + k) = backoffDelay (attempt + (k + 1))
      congr 1
      omega

/-- C1: for every `retryCount ≥ 0`, `withRetry(fn, retryCount)` invokes
`fn` at most `retryCount + 1` times; the first successful invocation is
returned immediately with no further invocations and only the delays
already awaited; if all `retryCount + 1` invocations fail, the most
recent error is raised unchanged; the delay awaited before attempt
`i + 1` is `min(100·2^i, 2000)` ms, none is awaited after the final
failed attempt; with `retryCount = 0` there is exactly one invocation
and the failure propagates immediately with no delay. -/
theorem withRetry_spec {ε α : Type} (fn : Nat → Except ε α) (retryCount : Nat) :
    (withRetry fn (Int.ofNat retryCount)).2.1 ≤ retryCount + 1
    ∧ (∀ i v, i ≤ retryCount →
        (∀ j, j < i → (fn j).isOk = false) → fn i = .ok v →
        withRetry fn (Int.ofNat retryCount) =
          (.ok v, i + 1, (List.range i).map backoffDelay))
    ∧ (∀ e, (∀ j, j < retryCount → (fn j).isOk = false) →
        fn retryCount = .error e →
        withRetry fn (Int.ofNat retryCount) =
          (.error (some e), retryCount + 1,
           (List.range retryCount).map backoffDelay))
    ∧ (∀ i, backoffDelay i = min (100 * 2 ^ i) 2000)
    ∧ (∀ e, fn 0 = .error e →
        withRetry fn (Int.ofNat 0) = (.error (some e), 1, [])) := by
  have hnn : ¬ (Int.ofNat retryCount < 0) := by
    simp [Int.ofNat_eq_natCast]
  have hunfold : withRetry fn (Int.ofNat retryCount) =
      withRetryGo fn retryCount 0 := by
    simp [withRetry, hnn]
  refine ⟨?_, ?_, ?_, fun _ => rfl, ?_⟩
  · rw [hunfold]; exact withRetryGo_count_le fn retryCount 0
  · intro i v hle hfail hok
    rw [hunfold]
    have h := withRetryGo_success fn i 0 retryCount v hle
      (fun j hj => by simpa using hfail j hj) (by simpa using hok)
    simpa using h
  · intro e hfail he
    rw [hunfold]
    have h := withRetryGo_exhaust fn retryCount 0 e
      (fun j hj => by simpa using hfail j hj) (by simpa using he)
    simpa using h
  · intro e he
    have h := withRetryGo_exhaust fn 0 0 e (by omega) (by simpa using he)
    simpa [withRetry] using h

/-- Witness for C1: the fixture fails twice then succeeds; the run
returns 42 after exactly 3 invocations with delays 100 ms and 200 ms. -/
theorem withRetry_spec_witness :
    withRetry retryFnW (Int.ofNat 3) = (Except.ok 42, 3, [100, 200]) := by
  have h := (withRetry_spec retryFnW 3).2.1 2 42 (by omega)
    (by decide) (by rfl)
  have hr : (List.range 2).map backoffDelay = [100, 200] := by decide
  rw [h, hr]

/-- C10: with a negative `retryCount` the loop body never runs: `fn`
is never invoked and the rejection value is `null` (modelled as the
error `none`), not an `Error`. -/
theorem withRetry_negative {ε α : Type} (fn : Nat → Except ε α)
    (retryCount : Int) (h : retryCount < 0) :
    withRetry fn retryCount = (Except.error none, 0, []) := by
  simp [withRetry, h]

/-- Witness for C10 at `retryCount = -1`. -/
theorem withRetry_negative_witness :
    withRetry retryFnW (-1) = (Except.error none, 0, []) :=
  withRetry_negative retryFnW (-1) (by decide)

theorem callHttpTool_ok_sse (parse : String → Option Json)
    (body line : String)
    (hsse : (jsContains body "event:" || jsContains body "data:") = true)
    (hline : (jsSplitLines body).find? (fun l => jsStartsWith l "data:")
      = some line) :
    callHttpTool parse (okResp body) =
      .ok (unwrapResult parse (jsTrim (jsSliceFrom line 5))) := by
  simp [callHttpTool, okResp, hsse, hline]

theorem callHttpTool_ok_plain (parse : String → Option Json) (body : String)
    (hsse : (jsContains body "event:" || jsContains body "data:") = false) :
    callHttpTool parse (okResp body) = .ok (unwrapResult parse body) := by
  simp [callHttpTool, okResp, hsse]

/-- C2: on a 2xx response, the SSE body
`event: message\ndata: {"result":{"ok":true}}\n\n` and the plain body
`{"result":{"ok":true}}` both normalize to the decoded `{ok:true}`; a
non-JSON body such as `plain text` yields the literal raw string; in
general a decoded object with a `result` key yields the sub-value under
`result`, any other decoded value is returned itself, and a decode
failure yields the raw string. -/
theorem callHttpTool_normalization (parse : String → Option Json)
    (h1 : parse jsonBody = some resultWrapped)
    (h2 : parse "plain text" = none) :
    callHttpTool parse (okResp sseBody) = .ok (.json okObj)
    ∧ callHttpTool parse (okResp jsonBody) = .ok (.json okObj)
    ∧ callHttpTool parse (okResp "plain text") = .ok (.raw "plain text")
    ∧ (∀ s fields r, parse s = some (.obj fields) →
        jsonLookup fields "result" = some r →
        unwrapResult parse s = .json r)
    ∧ (∀ s fields, parse s = some (.obj fields) →
        jsonLookup fields "result" = none →
        unwrapResult parse s = .json (.obj fields))
    ∧ (∀ s j, parse s = some j → (∀ fields, j ≠ .obj fields) →
        unwrapResult parse s = .json j)
    ∧ (∀ s, parse s = none → unwrapResult parse s = .raw s) := by
  have hub : unwrapResult parse jsonBody = .json okObj := by
    simp [unwrapResult, h1, resultWrapped, jsonLookup]
  refine ⟨?_, ?_, ?_, ?_, ?_, ?_, ?_⟩
  · have hline : (jsSplitLines sseBody).find?
        (fun l => jsStartsWith l "data:") = some ("data: " ++ jsonBody) := by
      decide
    rw [callHttpTool_ok_sse parse sseBody ("data: " ++ jsonBody)
      (by decide) hline]
    have htrim : jsTrim (jsSliceFrom ("data: " ++ jsonBody) 5) = jsonBody := by
      decide
    rw [htrim, hub]
  · rw [callHttpTool_ok_plain parse jsonBody (by decide), hub]
  · rw [callHttpTool_ok_plain parse "plain text" (by decide)]
    simp [unwrapResult, h2]
  · intro s fields r hp hr
    simp [unwrapResult, hp, hr]
  · intro s fields hp hr
    simp [unwrapResult, hp, hr]
  · intro s j hp hne
    cases j <;> simp [unwrapResult, hp]
    exact absurd rfl (hne _)
  · intro s hp
    simp [unwrapResult, hp]

/-- Witness for C2 with the concrete decoder fixture. -/
theorem callHttpTool_normalization_witness :
    callHttpTool parseW (okResp sseBody) = Except.ok (HttpValue.json okObj)
    ∧ callHttpTool parseW (okResp jsonBody) = Except.ok (HttpValue.json okObj)
    ∧ callHttpTool parseW (okResp "plain text")
      = Except.ok (HttpValue.raw "plain text") := by
  have h := callHttpTool_normalization parseW rfl rfl
  exact ⟨h.1, h.2.1, h.2.2.1⟩

/-- C3 counterexample: `noisyBody` has no line starting with `event:`
or `data:`, and it decodes, yet `callHttpTool` does not JSON-decode the
whole body — the substring check routes it into the SSE branch, which
finds no `data:` line and throws `MalformedStream` instead of returning
the decoded value. -/
theorem callHttpTool_lineprefix_counterexample :
    (∀ line ∈ jsSplitLines noisyBody,
      jsStartsWith line "event:" = false ∧ jsStartsWith line "data:" = false)
    ∧ parseW noisyBody = some noisyJson
    ∧ callHttpTool parseW (okResp noisyBody)
      = Except.error McpError.malformedStream
    ∧ callHttpTool parseW (okResp noisyBody)
      ≠ Except.ok (unwrapResult parseW noisyBody) := by
  refine ⟨by decide, rfl, rfl, ?_⟩
  intro h
  rw [show callHttpTool parseW (okResp noisyBody)
      = Except.error McpError.malformedStream from rfl] at h
  exact Except.noConfusion h

/-- C3 (amended): for every 2xx body that does not contain the
substring `event:` or `data:` anywhere, `callHttpTool` does not take
the SSE branch: it JSON-decodes the whole body, unwraps a `result` key
when the decoded value is an object carrying one, and returns the raw
text on decode failure; with either substring present the SSE branch is
taken instead. -/
theorem callHttpTool_nonSse (parse : String → Option Json) (body : String)
    (hev : jsContains body "event:" = false)
    (hda : jsContains body "data:" = false) :
    callHttpTool parse (okResp body) = .ok (unwrapResult parse body)
    ∧ (∀ fields r, parse body = some (.obj fields) →
        jsonLookup fields "result" = some r →
        callHttpTool parse (okResp body) = .ok (.json r))
    ∧ (parse body = none →
        callHttpTool parse (okResp body) = .ok (.raw body)) := by
  have hmain : callHttpTool parse (okResp body) = .ok (unwrapResult parse body) :=
    callHttpTool_ok_plain parse body (by rw [hev, hda]; rfl)
  refine ⟨hmain, ?_, ?_⟩
  · intro fields r hp hr
    rw [hmain]
    simp [unwrapResult, hp, hr]
  · intro hp
    rw [hmain]
    simp [unwrapResult, hp]

/-- Witness for amended C3. -/
theorem callHttpTool_nonSse_witness :
    callHttpTool parseW (okResp "plain text")
      = Except.ok (HttpValue.raw "plain text") :=
  (callHttpTool_nonSse parseW "plain text" (by decide) (by decide)).2.2 rfl

/-- C9: a 2xx body routed to the SSE branch (it contains `event:` or
`data:`) in which no line starts with `data:` makes `callHttpTool`
throw `MalformedStream` (`No data found in SSE response`) rather than
return a value. -/
theorem callHttpTool_sseNoData (parse : String → Option Json) (body : String)
    (hsse : jsContains body "event:" = true ∨ jsContains body "data:" = true)
    (hnd : ∀ line ∈ jsSplitLines body, jsStartsWith line "data:" = false) :
    callHttpTool parse (okResp body) = Except.error McpError.malformedStream
    ∧ McpError.message McpError.malformedStream
      = "No data found in SSE response" := by
  have hfind : (jsSplitLines body).find? (fun l => jsStartsWith l "data:")
      = none := by
    rw [List.find?_eq_none]
    intro x hx
    simp [hnd x hx]
  have hb : (jsContains body "event:" || jsContains body "data:") = true := by
    rcases hsse with h | h <;> simp [h]
  refine ⟨?_, rfl⟩
  simp [callHttpTool, okResp, hb, hfind]

/-- Witness for C9: an SSE body with an `event:` line but no `data:`
line. -/
theorem callHttpTool_sseNoData_witness :
    callHttpTool parseW (okResp "event: ping\n\n")
      = Except.error McpError.malformedStream :=
  (callHttpTool_sseNoData parseW "event: ping\n\n"
    (Or.inl (by decide)) (by decide)).1

/-- C7: on a wrapper that is not in the connected state (fresh, or reset
by `disconnect`), `listTools` and `callTool` fail with `NotConnected`
(`Not connected to MCP server`) and perform no protocol effect; a fresh
wrapper is not connected and `disconnect` always leaves the wrapper not
connected with no client handle, so this covers every prior history. -/
theorem notConnected_guard (w : McpClientWrapper) (world : StdioWorld)
    (toolName : String) (args : List (String × Json))
    (h : w.client = none ∨ w.connected = false) :
    w.listTools world = (w, [], .error .notConnected)
    ∧ w.callTool toolName args world = (w, [], .error .notConnected)
    ∧ McpError.message .notConnected = "Not connected to MCP server"
    ∧ McpClientWrapper.new.connected = false
    ∧ (∀ w' : McpClientWrapper,
        (w'.disconnect).1.connected = false ∧ (w'.disconnect).1.client = none) := by
  have hguard : (w.client.isNone || !w.connected) = true := by
    rcases h with h | h <;> simp [h]
  refine ⟨?_, ?_, rfl, rfl, fun w' => ⟨rfl, rfl⟩⟩
  · simp [McpClientWrapper.listTools, hguard]
  · simp [McpClientWrapper.callTool, hguard]

/-- Witness for C7: a fresh wrapper refuses `callTool` without touching
the protocol. -/
theorem notConnected_guard_witness :
    McpClientWrapper.new.callTool "zai.zread.search_doc" [] happyWorld
      = (McpClientWrapper.new, [], .error .notConnected) :=
  (notConnected_guard McpClientWrapper.new happyWorld
    "zai.zread.search_doc" [] (Or.inl rfl)).2.1

/-- C8: whenever the wrapped operation has not resolved within the
deadline (it settles at or after `timeoutMs`, or never), `withTimeout`
rejects with the Timeout error carrying the operation label and the
limit, whatever the operation's eventual outcome; connection
establishment runs under the 30,000 ms deadline and each tool call
(`listTools`, `callTool`) under the 120,000 ms deadline. -/
theorem withTimeout_deadline {α : Type} (op : AsyncOp α) (timeoutMs : Nat)
    (label : String)
    (h : ∀ t, op.resolveAt = some t → timeoutMs ≤ t) :
    withTimeout op timeoutMs label
      = Except.error (McpError.timedOut label timeoutMs)
    ∧ MCP_CONNECTION_TIMEOUT = 30000
    ∧ MCP_TOOL_TIMEOUT = 120000
    ∧ (∀ (key : String) (world : StdioWorld),
        world.connectOp.resolveAt = none →
        (McpClientWrapper.new.connect .zread key world).2.2
          = Except.error (.timedOut (connectionLabel .zread) 30000))
    ∧ (∀ (w : McpClientWrapper) (world : StdioWorld) (toolName : String)
        (args : List (String × Json)),
        (world.callToolOp toolName args).resolveAt = none →
        w.client.isNone = false → w.connected = true →
        (w.callTool toolName args world).2.2
          = Except.error (.timedOut ("tool call: " ++ toolName) 120000))
    ∧ (∀ (w : McpClientWrapper) (world : StdioWorld),
        world.listToolsOp.resolveAt = none →
        w.client.isNone = false → w.connected = true →
        (w.listTools world).2.2
          = Except.error (.timedOut "list tools" 120000)) := by
  refine ⟨?_, rfl, rfl, ?_, ?_, ?_⟩
  · cases hres : op.resolveAt with
    | none => simp [withTimeout, hres]
    | some t =>
        have hle := h t hres
        simp [withTimeout, hres, Nat.not_lt.mpr hle]
  · intro key world hnone
    simp [McpClientWrapper.connect, getServerConfig, withTimeout, hnone,
      MCP_CONNECTION_TIMEOUT]
  · intro w world toolName args hnone hcl hco
    simp [McpClientWrapper.callTool, hcl, hco, withTimeout, hnone,
      MCP_TOOL_TIMEOUT]
  · intro w world hnone hcl hco
    simp [McpClientWrapper.listTools, hcl, hco, withTimeout, hnone,
      MCP_TOOL_TIMEOUT]

/-- Witness for C8: an operation that never settles, with a pending
successful outcome, still times out. -/
theorem withTimeout_deadline_witness :
    withTimeout { resolveAt := none, outcome := Except.ok (7 : Nat) }
      30000 "probe" = Except.error (McpError.timedOut "probe" 30000) :=
  (withTimeout_deadline { resolveAt := none, outcome := Except.ok (7 : Nat) }
    30000 "probe" (fun _ ht => Option.noConfusion ht)).1

/-- C5 counterexample: a connect attempt whose SDK connection rejects
leaves the wrapper still holding the client and transport handles it
just constructed, and no close is ever issued — the claimed implicit
`close()` releasing every handle does not happen. -/
theorem connect_failure_retains_handles_counterexample :
    (McpClientWrapper.new.connect .zread "key" connectFailWorld).2.2
      = Except.error (McpError.connectFailed "spawn failed")
    ∧ (McpClientWrapper.new.connect .zread "key" connectFailWorld).1.client
      = some { name := "zai-cli", version := "0.1.0" }
    ∧ (McpClientWrapper.new.connect .zread "key" connectFailWorld).1.transport
      = some (zreadTransport "key")
    ∧ Effect.closeTransport
      ∉ (McpClientWrapper.new.connect .zread "key" connectFailWorld).2.1 := by
  refine ⟨rfl, rfl, rfl, ?_⟩
  decide

/-- C5 (amended): a connect attempt that fails (rejection or timeout)
leaves the wrapper reporting not-connected — so later `invoke` and
`listTools` fail with `NotConnected` — but performs no implicit close:
the `client` and `transport` fields keep the handles just constructed,
the only effect is the transport start, and no close effect occurs, so
subprocess termination is not guaranteed. -/
theorem connect_failure_state (w : McpClientWrapper)
    (serverType : McpServerType) (apiKey : String) (world : StdioWorld)
    (config : McpServerConfig) (e : McpError)
    (hconf : getServerConfig serverType apiKey = .ok config)
    (hfail : withTimeout world.connectOp MCP_CONNECTION_TIMEOUT
      (connectionLabel serverType) = .error e)
    (hw : w.connected = false) :
    (w.connect serverType apiKey world).2.2 = Except.error e
    ∧ (w.connect serverType apiKey world).1.isConnected = false
    ∧ (w.connect serverType apiKey world).1.client
      = some { name := "zai-cli", version := "0.1.0" }
    ∧ (w.connect serverType apiKey world).1.transport
      = some { command := config.command, args := config.args,
               env := config.env }
    ∧ (w.connect serverType apiKey world).2.1
      = [Effect.startTransport
          { command := config.command, args := config.args,
            env := config.env }]
    ∧ Effect.closeTransport ∉ (w.connect serverType apiKey world).2.1 := by
  refine ⟨?_, ?_, ?_, ?_, ?_, ?_⟩ <;>
    simp [McpClientWrapper.connect, hconf, hfail,
      McpClientWrapper.isConnected, hw]

/-- Witness for amended C5 on the rejecting world. -/
theorem connect_failure_state_witness :
    (McpClientWrapper.new.connect .zread "key" connectFailWorld).1.isConnected
      = false :=
  (connect_failure_state McpClientWrapper.new .zread "key" connectFailWorld
    (zreadConfig "key") (McpError.connectFailed "spawn failed")
    rfl rfl rfl).2.1

/-- C4 counterexample: when the tool invocation rejects, `callZRead`
rejects without ever reaching its `disconnect()` line — the Session
opened for the call is not closed. -/
theorem callZRead_leak_counterexample :
    callZRead "key" .searchDoc [] callRejectWorld
      = (Except.error (McpError.toolFailed "boom"),
         [Effect.startTransport (zreadTransport "key"),
          Effect.protoCallTool "zai.zread.search_doc"])
    ∧ Effect.closeTransport
      ∉ (callZRead "key" .searchDoc [] callRejectWorld).2 := by
  refine ⟨rfl, ?_⟩
  decide

/-- C4 (amended): when the tool invocation resolves — with or without
the remote error flag, whose case raises only after the disconnect —
the Session is closed before `callZRead` resolves or rejects; but when
the tool invocation itself rejects, the disconnect line is never
reached and the Session is not closed. -/
theorem callZRead_disconnect (apiKey : String) (method : ZReadMethod)
    (args : List (String × Json)) (world : StdioWorld) (t1 : Nat)
    (ht1 : world.connectOp.resolveAt = some t1)
    (hlt1 : t1 < MCP_CONNECTION_TIMEOUT)
    (hc : world.connectOp.outcome = .ok ()) :
    (∀ (resp : RawToolResponse) (t2 : Nat),
      (world.callToolOp (zreadToolName method) args).resolveAt = some t2 →
      t2 < MCP_TOOL_TIMEOUT →
      (world.callToolOp (zreadToolName method) args).outcome = .ok resp →
      (callZRead apiKey method args world).2
        = [Effect.startTransport (zreadTransport apiKey),
           Effect.protoCallTool (zreadToolName method),
           Effect.closeTransport]
      ∧ (resp.isError = some true →
          (callZRead apiKey method args world).1
            = Except.error (McpError.zreadFailed method.str resp.content))
      ∧ (resp.isError ≠ some true →
          (callZRead apiKey method args world).1 = Except.ok resp.content))
    ∧ (∀ e : McpError,
        withTimeout (world.callToolOp (zreadToolName method) args)
          MCP_TOOL_TIMEOUT ("tool call: " ++ zreadToolName method)
          = Except.error e →
        (callZRead apiKey method args world).1 = Except.error e
        ∧ Effect.closeTransport ∉ (callZRead apiKey method args world).2) := by
  have hwc : withTimeout world.connectOp MCP_CONNECTION_TIMEOUT
      (connectionLabel .zread) = Except.ok () := by
    simp [withTimeout, ht1, hlt1, hc]
  have hcs : connectToServer .zread apiKey world
      = (.ok (connectedWrapper apiKey),
         [Effect.startTransport (zreadTransport apiKey)]) := by
    simp [connectToServer, McpClientWrapper.connect, getServerConfig, hwc,
      McpClientWrapper.new, connectedWrapper, zreadTransport]
  constructor
  · intro resp t2 ht2 hlt2 hresp
    have hwt : withTimeout (world.callToolOp (zreadToolName method) args)
        MCP_TOOL_TIMEOUT ("tool call: " ++ zreadToolName method)
        = Except.ok resp := by
      simp [withTimeout, ht2, hlt2, hresp]
    have hct : (connectedWrapper apiKey).callTool (zreadToolName method)
        args world
        = (connectedWrapper apiKey,
           [Effect.protoCallTool (zreadToolName method)],
           Except.ok { content := resp.content, isError := resp.isError }) := by
      simp [McpClientWrapper.callTool, connectedWrapper, hwt]
    have htr : (connectedWrapper apiKey).transport.isSome = true := rfl
    refine ⟨?_, ?_, ?_⟩
    · by_cases hie : resp.isError = some true <;>
        simp [callZRead, hcs, hct, McpClientWrapper.disconnect, htr, hie]
    · intro hie
      simp [callZRead, hcs, hct, McpClientWrapper.disconnect, htr, hie]
    · intro hie
      simp [callZRead, hcs, hct, McpClientWrapper.disconnect, htr, hie]
  · intro e he
    have hct : (connectedWrapper apiKey).callTool (zreadToolName method)
        args world
        = (connectedWrapper apiKey,
           [Effect.protoCallTool (zreadToolName method)],
           Except.error e) := by
      simp [McpClientWrapper.callTool, connectedWrapper, he]
    constructor
    · simp [callZRead, hcs, hct]
    · simp [callZRead, hcs, hct]

/-- Witness for amended C4: in the all-successful world the effect
trace of `callZRead` ends with the transport close. -/
theorem callZRead_disconnect_witness :
    Effect.closeTransport ∈ (callZRead "key" .searchDoc [] happyWorld).2 := by
  have h := ((callZRead_disconnect "key" .searchDoc [] happyWorld 0 rfl
    (by decide) rfl).1 okToolResp 0 rfl (by decide) rfl).1
  rw [h]
  decide

/-- C6 counterexample: a capability invocation whose NormalizedResult
arrives with the remote `isError` flag set is delivered as data by the
Session layer, but `callZRead` — a cited capability-invocation path —
converts it into a raised failure instead of surfacing it to its
caller as data. -/
theorem callZRead_isError_raises_counterexample :
    (connectedWrapper "key").callTool "zai.zread.search_doc" [] isErrorWorld
      = (connectedWrapper "key",
         [Effect.protoCallTool "zai.zread.search_doc"],
         Except.ok { content := [Json.str "oops"], isError := some true })
    ∧ (callZRead "key" .searchDoc [] isErrorWorld).1
      = Except.error (McpError.zreadFailed "search_doc" [Json.str "oops"]) :=
  ⟨rfl, rfl⟩

/-- C6 (amended): at the Session level (`McpClientWrapper.callTool`) a
NormalizedResult with the remote `isError` flag is surfaced to the
caller as data, the flag copied verbatim from the remote response and
never inferred locally or turned into a raised failure; the `callZRead`
dispatcher above it, however, raises on a true `isError`. -/
theorem callTool_isError_as_data (w : McpClientWrapper) (world : StdioWorld)
    (toolName : String) (args : List (String × Json))
    (hcl : w.client.isNone = false) (hco : w.connected = true)
    (resp : RawToolResponse) (t : Nat)
    (ht : (world.callToolOp toolName args).resolveAt = some t)
    (hlt : t < MCP_TOOL_TIMEOUT)
    (hout : (world.callToolOp toolName args).outcome = .ok resp) :
    w.callTool toolName args world
      = (w, [Effect.protoCallTool toolName],
         Except.ok { content := resp.content, isError := resp.isError }) := by
  have hwt : withTimeout (world.callToolOp toolName args) MCP_TOOL_TIMEOUT
      ("tool call: " ++ toolName) = Except.ok resp := by
    simp [withTimeout, ht, hlt, hout]
  simp [McpClientWrapper.callTool, hcl, hco, hwt]

/-- Witness for amended C6: the remote error flag arrives as data. -/
theorem callTool_isError_as_data_witness :
    (connectedWrapper "key").callTool "probe" [] isErrorWorld
      = (connectedWrapper "key", [Effect.protoCallTool "probe"],
         Except.ok { content := [Json.str "oops"], isError := some true }) :=
  callTool_isError_as_data (connectedWrapper "key") isErrorWorld "probe" []
    rfl rfl errToolResp 0 rfl (by decide) rfl
